import Mathlib

/-!
Verification development for the ISR (Incremental Static Regeneration) core of
rx-angular: a shallow embedding of the regeneration coordinator
(`CacheGeneration.generateWithCacheKey`), the serve controller
(`ISRHandler.serveFromCache`), the invalidation controller
(`ISRHandler.invalidate` and `ISRHandler.getVariantUrlsToInvalidate`) and the
timeout executor (`executeWithTimeout`), together with theorems settling the
frozen specification claims.

JavaScript values are embedded explicitly: a `number | null | undefined`
revalidate becomes the inductive `JSNum` (JS truthiness is `jsTruthy`), a
`string | null | undefined` token becomes `JSStr` (so that `undefined !== null`
is kept, as in the source), timestamps are `Int` milliseconds, and the asynchrony
of the source is embedded by passing the settled outcome of each awaited promise
as an explicit `Except` argument and recording the effects (cache writes,
registry state, `res.send` / `next()` calls) in result records.
-/

/-- JS `number | null | undefined`, as used for the `revalidate` field. -/
inductive JSNum where
  | num (n : Int)
  | null
  | undef
deriving DecidableEq, Repr

/-- JS `string | null | undefined`, as used for the invalidation token.
`null` and `undef` are distinct because JS `undefined !== null`. -/
inductive JSStr where
  | str (s : String)
  | null
  | undef
deriving DecidableEq, Repr

/-- JS truthiness of a `JSNum`: `0`, `null` and `undefined` are falsy. -/
def jsTruthy : JSNum → Bool
  | .num n => n != 0
  | .null => false
  | .undef => false

/-- JS `a || b` on revalidate values (source line
`revalidate = revalidate || this.isrConfig.defaultRevalidate`). -/
def jsOr (a b : JSNum) : JSNum :=
  if jsTruthy a then a else b

/-- `RenderVariant` from the models: requests are embedded as opaque strings,
`simulateVariant` is the optional request transformer. The `detectVariant`
predicate is resolved outside the embedded functions (its implementation,
`getVariant`, lives in `cache-utils`), so the resolved variant is passed in. -/
structure RenderVariant where
  identifier : String
  simulateVariant : Option (String → String)

/-- `CacheKeyGeneratorFn`: `(url, allowedQueryParams, variant) => string`. -/
def CacheKeyGeneratorFn : Type :=
  String → Option (List String) → Option RenderVariant → String

/-- One invocation of the store operation `cache.add(cacheKey, html, config)`
recorded by the embedding; `revalidate` is the JS value passed through. -/
structure CacheWrite where
  cacheKey : String
  html : String
  revalidate : JSNum
  buildId : Option String
deriving DecidableEq, Repr

/-- The data the `try` block of `generateWithCacheKey` obtains from
`renderUrl` plus `getRouteISRDataFromHTML`: the markup, the revalidate
directive reported by the page, and the render-reported errors. A failed
render is an `Except.error` of this payload type at the call site. -/
structure RenderData where
  html : String
  revalidate : JSNum
  errors : List String

/-- The slice of `ISRHandlerConfig` the embedded functions read, after the
`ISRHandler` constructor normalisations (`skipCachingOnHttpError` defaulted to
true, `buildId` and `invalidateSecretToken` coalesced to null).
`modifyGeneratedHtml` stands for the configured callback or, when none is
configured, the default `defaultModifyGeneratedHtml` (its body is a pure
`(html, revalidate) => html` transformation); `compressHtml` is the optional
compression callback. -/
structure ISRConfig where
  cacheKeyGenerator : CacheKeyGeneratorFn
  allowedQueryParams : Option (List String)
  variants : List RenderVariant
  defaultRevalidate : JSNum
  skipCachingOnHttpError : Bool
  buildId : Option String
  invalidateSecretToken : JSStr
  nonBlockingRender : Bool
  backgroundRevalidation : Bool
  compressHtml : Option (String → String)
  modifyGeneratedHtml : String → JSNum → String

/-- Generation mode of `generateWithCacheKey`. -/
inductive Mode where
  | regenerate
  | generate
deriving DecidableEq, Repr

/-- What `generateWithCacheKey` gives back to its caller: `skipped` is the
`return;` taken when another regeneration is in flight (the promise resolves
to `undefined`), `result` is an `IGeneratedResult`, and `threw` is a rejected
promise (the rethrown render error). -/
inductive GenOutcome where
  | skipped
  | result (html : String) (errors : List String)
  | threw (err : String)
deriving DecidableEq, Repr

/-- Full observable effect of one `generateWithCacheKey` call: its outcome,
the `urlsOnHold` registry after the call, the `cache.add` invocations it made,
whether `renderUrl` was invoked, and — when it was — the registry contents at
the moment rendering began. -/
structure GenResult where
  outcome : GenOutcome
  urlsOnHold : List String
  writes : List CacheWrite
  rendered : Bool
  registryAtRender : Option (List String)
deriving DecidableEq, Repr

/-- The final HTML produced inside `generateWithCacheKey`: the modify callback
applied to the rendered markup, then the compression callback when one is
configured. -/
def generatedFinalHtml (cfg : ISRConfig) (rd : RenderData) : String :=
  match cfg.compressHtml with
  | some compress => compress (cfg.modifyGeneratedHtml rd.html rd.revalidate)
  | none => cfg.modifyGeneratedHtml rd.html rd.revalidate

/-- Shallow embedding of `CacheGeneration.generateWithCacheKey`
(src/libs/isr/server/src/cache-generation.ts). `urlsOnHold` is the registry
before the call and `render` the settled outcome of the awaited
`renderUrl` / ISR-data extraction. The branch structure mirrors the source:
the in-flight skip, the registry push, the error-skip return, the
`-1` and `null`/`undefined` no-cache returns (note: these two return without
filtering `urlsOnHold`, exactly as the source does), the cache write, and the
`catch` that filters the registry and rethrows. -/
def generateWithCacheKey (cfg : ISRConfig) (urlsOnHold : List String)
    (cacheKey : String) (mode : Mode) (render : Except String RenderData) :
    GenResult :=
  if mode = .regenerate ∧ cacheKey ∈ urlsOnHold then
    { outcome := .skipped, urlsOnHold := urlsOnHold, writes := []
      rendered := false, registryAtRender := none }
  else
    let held := if mode = .regenerate then urlsOnHold ++ [cacheKey] else urlsOnHold
    match render with
    | .error e =>
      { outcome := .threw e
        urlsOnHold := if mode = .regenerate then held.filter (· ≠ cacheKey) else held
        writes := [], rendered := true, registryAtRender := some held }
    | .ok rd =>
      let finalHtml := generatedFinalHtml cfg rd
      if rd.errors ≠ [] ∧ cfg.skipCachingOnHttpError then
        { outcome := .result finalHtml rd.errors
          urlsOnHold := if mode = .regenerate then held.filter (· ≠ cacheKey) else held
          writes := [], rendered := true, registryAtRender := some held }
      else
        let revalidate := jsOr rd.revalidate cfg.defaultRevalidate
        if revalidate = .num (-1) then
          { outcome := .result finalHtml [], urlsOnHold := held
            writes := [], rendered := true, registryAtRender := some held }
        else if revalidate = .null ∨ revalidate = .undef then
          { outcome := .result finalHtml [], urlsOnHold := held
            writes := [], rendered := true, registryAtRender := some held }
        else
          { outcome := .result finalHtml []
            urlsOnHold := if mode = .regenerate then held.filter (· ≠ cacheKey) else held
            writes := [⟨cacheKey, finalHtml, revalidate, cfg.buildId⟩]
            rendered := true, registryAtRender := some held }

/-- One `VariantRebuildItem` of the invalidation controller. -/
structure VariantRebuildItem where
  url : String
  cacheKey : String
  reqSimulator : String → String

/-- Shallow embedding of `ISRHandler.getVariantUrlsToInvalidate`: for each URL
the source first pushes `{ url, cacheKey: url, reqSimulator: defaultVariant }`
(note: the raw URL as cache key) and then one item per configured variant,
with the variant cache key produced by the configured generator. -/
def getVariantUrlsToInvalidate (cfg : ISRConfig) (urlsToInvalidate : List String) :
    List VariantRebuildItem :=
  urlsToInvalidate.flatMap fun url =>
    ⟨url, url, id⟩ ::
      cfg.variants.map fun variant =>
        ⟨url, cfg.cacheKeyGenerator url cfg.allowedQueryParams (some variant),
          variant.simulateVariant.getD id⟩

/-- The marker the serve controller appends after applying a caller-supplied
`modifyCachedHtml` callback. The real text embeds a measured processing time;
the embedding keeps it as a fixed non-empty comment since no claim depends on
the timing digits. -/
def modifyCachedHtmlMarker : String :=
  "<!-- ISR: This cachedHtml has been modified with modifyCachedHtml() -->"

/-- The `modifyCachedHtml` application step of `serveFromCache`: skipped
entirely when compression is configured, otherwise the optional callback plus
its marker comment. -/
def applyModifyCachedHtml (cfg : ISRConfig) (modifyCachedHtml : Option (String → String))
    (html : String) : String :=
  if cfg.compressHtml.isSome then html
  else
    match modifyCachedHtml with
    | some f => f html ++ modifyCachedHtmlMarker
    | none => html

/-- `CacheISRConfig` stored with an entry: its revalidate directive, its
optional build id (`none` embeds both JS `null` and `undefined`, which the
source treats identically via the `!== null && !== undefined` check), and the
render-reported errors. -/
structure CacheISRConfig where
  revalidate : JSNum
  buildId : Option String
  errors : List String
deriving Repr

/-- `CacheData` returned by `cache.get`: markup, entry options, creation
timestamp in milliseconds. -/
structure CacheData where
  html : String
  options : CacheISRConfig
  createdAt : Int
deriving Repr

/-- Observable effect of one `serveFromCache` call: the cache key it derived,
the payload passed to `res.send` (if any), whether `next()` was called,
whether `generateWithCacheKey` was invoked, and the registry / write effects
of that invocation. -/
structure ServeResult where
  cacheKey : String
  sent : Option String
  nextCalled : Bool
  regenerated : Bool
  urlsOnHold : List String
  writes : List CacheWrite
deriving Repr

/-- Shallow embedding of `ISRHandler.serveFromCache`. `variant` is the result
of `getVariant` on the request, `lookup` the settled outcome of the
timeout-bounded `cache.get`, `now` is `Date.now()`, and `render` the settled
render outcome a triggered regeneration would observe. The float expression
`(Date.now() - createdAt) / 1000 > revalidate` of the source is embedded by
the exact equivalent integer inequality `now - createdAt > 1000 * revalidate`.
The branch where a synchronous regeneration throws mirrors the source
faithfully: the `catch` calls `next()` and — because the source has no
`return` there — execution still falls through to `res.send` of the stale
HTML. -/
def serveFromCache (cfg : ISRConfig) (urlsOnHold : List String) (url : String)
    (variant : Option RenderVariant) (modifyCachedHtml : Option (String → String))
    (lookup : Except String CacheData) (now : Int)
    (render : Except String RenderData) : ServeResult :=
  let cacheKey := cfg.cacheKeyGenerator url cfg.allowedQueryParams variant
  match lookup with
  | .error _ =>
    { cacheKey := cacheKey, sent := none, nextCalled := true, regenerated := false
      urlsOnHold := urlsOnHold, writes := [] }
  | .ok cacheData =>
    if cacheData.options.buildId.isSome ∧ cacheData.options.buildId ≠ cfg.buildId then
      { cacheKey := cacheKey, sent := none, nextCalled := true, regenerated := false
        urlsOnHold := urlsOnHold, writes := [] }
    else
      match cacheData.options.revalidate with
      | .num n =>
        if 0 < n ∧ now - cacheData.createdAt > 1000 * n then
          let g := generateWithCacheKey cfg urlsOnHold cacheKey .regenerate render
          if cfg.backgroundRevalidation then
            { cacheKey := cacheKey
              sent := some (applyModifyCachedHtml cfg modifyCachedHtml cacheData.html)
              nextCalled := false, regenerated := true
              urlsOnHold := g.urlsOnHold, writes := g.writes }
          else
            match g.outcome with
            | .result h _ =>
              { cacheKey := cacheKey
                sent := some (applyModifyCachedHtml cfg modifyCachedHtml h)
                nextCalled := false, regenerated := true
                urlsOnHold := g.urlsOnHold, writes := g.writes }
            | .skipped =>
              { cacheKey := cacheKey
                sent := some (applyModifyCachedHtml cfg modifyCachedHtml cacheData.html)
                nextCalled := false, regenerated := true
                urlsOnHold := g.urlsOnHold, writes := g.writes }
            | .threw _ =>
              { cacheKey := cacheKey
                sent := some (applyModifyCachedHtml cfg modifyCachedHtml cacheData.html)
                nextCalled := true, regenerated := true
                urlsOnHold := g.urlsOnHold, writes := g.writes }
        else
          { cacheKey := cacheKey
            sent := some (applyModifyCachedHtml cfg modifyCachedHtml cacheData.html)
            nextCalled := false, regenerated := false
            urlsOnHold := urlsOnHold, writes := [] }
      | _ =>
        { cacheKey := cacheKey
          sent := some (applyModifyCachedHtml cfg modifyCachedHtml cacheData.html)
          nextCalled := false, regenerated := false
          urlsOnHold := urlsOnHold, writes := [] }

/-- The environment of one `invalidate` call: per cache key, the settled
outcome of the timeout-bounded `cache.has` check and the settled render
outcome a triggered regeneration would observe. -/
structure InvalidateEnv where
  cacheHas : String → Except String Bool
  renderEnv : String → Except String RenderData

/-- The `.catch(() => false)` applied to the timeout-bounded `cache.has`:
a lookup failure is treated as "not in cache". -/
def cacheHasBool (env : InvalidateEnv) (cacheKey : String) : Bool :=
  match env.cacheHas cacheKey with
  | .ok b => b
  | .error _ => false

/-- Mutable state threaded through the `for` loop of `invalidate`. -/
structure InvLoopState where
  notInCache : List String
  urlWithErrors : List (String × List String)
  hasCalls : List String
  urlsOnHold : List String
  writes : List CacheWrite
  regens : List String
deriving Repr

/-- Assignment `urlWithErrors[cacheKey] = errs` on the record embedded as an
association list: replaces an existing binding, else appends. -/
def assocSet (m : List (String × List String)) (k : String) (v : List String) :
    List (String × List String) :=
  if m.any (·.1 = k) then m.map fun p => if p.1 = k then (k, v) else p
  else m ++ [(k, v)]

/-- One iteration of the `for (const variantUrl of variantUrlsToInvalidate)`
loop of `invalidate`: the `cache.has` check (failure caught as `false`),
the `notInCache` recording, and otherwise the `generate`-mode regeneration
with its error collection (`result.errors` when non-empty, or the thrown
error). -/
def invalidateStep (cfg : ISRConfig) (env : InvalidateEnv)
    (item : VariantRebuildItem) (s : InvLoopState) : InvLoopState :=
  let s := { s with hasCalls := s.hasCalls ++ [item.cacheKey] }
  if cacheHasBool env item.cacheKey = false then
    { s with notInCache := s.notInCache ++ [item.cacheKey] }
  else
    let g := generateWithCacheKey cfg s.urlsOnHold item.cacheKey .generate
      (env.renderEnv item.cacheKey)
    let s := { s with
      urlsOnHold := g.urlsOnHold
      writes := s.writes ++ g.writes
      regens := s.regens ++ [item.cacheKey] }
    match g.outcome with
    | .result _ errs =>
      if errs ≠ [] then { s with urlWithErrors := assocSet s.urlWithErrors item.cacheKey errs }
      else s
    | .threw e => { s with urlWithErrors := assocSet s.urlWithErrors item.cacheKey [e] }
    | .skipped => s

/-- The whole `for` loop of `invalidate`, sequential over the rebuild items. -/
def invalidateLoop (cfg : ISRConfig) (env : InvalidateEnv) :
    List VariantRebuildItem → InvLoopState → InvLoopState
  | [], s => s
  | item :: rest, s => invalidateLoop cfg env rest (invalidateStep cfg env item s)

/-- Observable effect of one `invalidate` call: the JSON response fields plus
the store/regeneration effects performed. `hasCalls` records every
`cache.has` invocation in order; `regens` every `generateWithCacheKey`
invocation. -/
structure InvalidateResult where
  status : String
  message : Option String
  notInCache : List String
  urlWithErrors : List (String × List String)
  invalidatedUrls : List String
  hasCalls : List String
  urlsOnHold : List String
  writes : List CacheWrite
  regens : List String
deriving Repr

/-- Shallow embedding of `ISRHandler.invalidate`. `token` is the token
extracted from the request body (`undef` when absent) and `urlsToInvalidate`
the extracted URL list (`none` embeds a missing/`undefined` field; the source
guard `!urlsToInvalidate || !urlsToInvalidate.length` also rejects `[]`).
The secret-token comparison is the JS `!==` on `JSStr`. -/
def invalidate (cfg : ISRConfig) (urlsOnHold : List String) (token : JSStr)
    (urlsToInvalidate : Option (List String)) (env : InvalidateEnv) :
    InvalidateResult :=
  if token ≠ cfg.invalidateSecretToken then
    { status := "error", message := some "Your secret token is wrong!!!"
      notInCache := [], urlWithErrors := [], invalidatedUrls := []
      hasCalls := [], urlsOnHold := urlsOnHold, writes := [], regens := [] }
  else
    match urlsToInvalidate with
    | none =>
      { status := "error", message := some "Please add urlsToInvalidate in the payload!"
        notInCache := [], urlWithErrors := [], invalidatedUrls := []
        hasCalls := [], urlsOnHold := urlsOnHold, writes := [], regens := [] }
    | some [] =>
      { status := "error", message := some "Please add urlsToInvalidate in the payload!"
        notInCache := [], urlWithErrors := [], invalidatedUrls := []
        hasCalls := [], urlsOnHold := urlsOnHold, writes := [], regens := [] }
    | some urls =>
      let items := getVariantUrlsToInvalidate cfg urls
      let s := invalidateLoop cfg env items
        { notInCache := [], urlWithErrors := [], hasCalls := []
          urlsOnHold := urlsOnHold, writes := [], regens := [] }
      let invalidatedUrls := (items.map (·.cacheKey)).filter fun k =>
        ¬ k ∈ s.notInCache ∧ ¬ s.urlWithErrors.any (·.1 = k)
      { status := "success", message := none
        notInCache := s.notInCache, urlWithErrors := s.urlWithErrors
        invalidatedUrls := invalidatedUrls
        hasCalls := s.hasCalls, urlsOnHold := s.urlsOnHold
        writes := s.writes, regens := s.regens }

/-- A promise as the timeout executor observes it: either it settles at an
absolute time (milliseconds) with an outcome, or it never settles. -/
structure SimPromise (α : Type) where
  settled : Option (Nat × Except String α)

/-- Observable effect of one `executeWithTimeout` call: the settled outcome,
the time at which the race settled, and whether `clearTimeout` ran. -/
structure TimeoutRun (α : Type) where
  outcome : Except String α
  finishTime : Nat
  timerCleared : Bool
deriving Repr

/-- Shallow embedding of `executeWithTimeout` (src/libs/isr/server/src/utils):
`Promise.race` between the operation and a timer that rejects with
`Error(message)` at `timeoutMs`, with the `finally` clearing the timer on
every path. An operation settling within the deadline wins the race with its
own outcome at its own settle time; otherwise the timer rejection wins at
exactly `timeoutMs`. -/
def executeWithTimeout {α : Type} (promise : SimPromise α) (timeoutMs : Nat)
    (message : String) : TimeoutRun α :=
  match promise.settled with
  | some (t, outcome) =>
    if t ≤ timeoutMs then
      { outcome := outcome, finishTime := t, timerCleared := true }
    else
      { outcome := .error message, finishTime := timeoutMs, timerCleared := true }
  | none =>
    { outcome := .error message, finishTime := timeoutMs, timerCleared := true }

/-! Concrete instances used to evaluate the embedding at specific inputs. -/

/-- A baseline configuration: identity cache key generator, no variants, no
default revalidate, skip-caching-on-error on (the constructor default), no
build id, no secret (normalised to null), blocking render, synchronous
revalidation, no compression, identity modify callback. -/
def cfgBase : ISRConfig where
  cacheKeyGenerator := fun url _ _ => url
  allowedQueryParams := none
  variants := []
  defaultRevalidate := .undef
  skipCachingOnHttpError := true
  buildId := none
  invalidateSecretToken := .null
  nonBlockingRender := false
  backgroundRevalidation := false
  compressHtml := none
  modifyGeneratedHtml := fun html _ => html

/-- A configuration whose cache key generator is not the identity on URLs. -/
def cfgC6 : ISRConfig :=
  { cfgBase with cacheKeyGenerator := fun url _ _ => url ++ "|gen" }

/-- A variant with a request simulator. -/
def variantMobile : RenderVariant :=
  ⟨"mobile", some fun r => r ++ "-mobile"⟩

/-- A variant without a request simulator. -/
def variantDark : RenderVariant :=
  ⟨"dark", none⟩

/-- A configuration with two variants and a variant-aware key generator. -/
def cfgC8 : ISRConfig :=
  { cfgBase with
    variants := [variantDark, variantMobile]
    cacheKeyGenerator := fun url _ v =>
      match v with
      | some variant => url ++ "?variant=" ++ variant.identifier
      | none => url }

/-- A configuration with a configured default revalidate of 0. -/
def cfgC10 : ISRConfig :=
  { cfgBase with defaultRevalidate := .num 0 }

/-- An invalidation environment in which only the key "/a" is in the cache
and every regeneration renders successfully. -/
def envHasOnlyA : InvalidateEnv where
  cacheHas := fun k => .ok (k == "/a")
  renderEnv := fun _ => .ok ⟨"regen", .num 1, []⟩

/-- A cache entry with revalidate 5 seconds, created at time 0. -/
def cdC3 : CacheData :=
  ⟨"cached", ⟨.num 5, none, []⟩, 0⟩

/-- A cache entry with revalidate 1 second, created at time 0. -/
def cdC5 : CacheData :=
  ⟨"stale", ⟨.num 1, none, []⟩, 0⟩

/-! Helper lemmas shared by the claim theorems. -/

theorem jsOr_eq_zero {a b : JSNum} (h : jsOr a b = .num 0) : b = .num 0 := by
  unfold jsOr at h
  split at h
  · rename_i ht
    cases a with
    | num n => simp [jsTruthy] at ht; cases h; simp_all
    | null => simp [jsTruthy] at ht
    | undef => simp [jsTruthy] at ht
  · exact h

theorem invalidateStep_hasCalls (cfg : ISRConfig) (env : InvalidateEnv)
    (item : VariantRebuildItem) (s : InvLoopState) :
    (invalidateStep cfg env item s).hasCalls = s.hasCalls ++ [item.cacheKey] := by
  unfold invalidateStep
  split
  · rfl
  · dsimp only
    split
    · split <;> rfl
    · rfl
    · rfl

theorem invalidateStep_notInCache (cfg : ISRConfig) (env : InvalidateEnv)
    (item : VariantRebuildItem) (s : InvLoopState) :
    (invalidateStep cfg env item s).notInCache =
      s.notInCache ++ (if cacheHasBool env item.cacheKey then [] else [item.cacheKey]) := by
  unfold invalidateStep
  split
  · rename_i h
    simp [h]
  · rename_i h
    simp only [Bool.not_eq_false] at h
    simp only [h, if_true]
    split
    · split <;> simp
    · simp
    · simp

theorem invalidateLoop_hasCalls (cfg : ISRConfig) (env : InvalidateEnv)
    (items : List VariantRebuildItem) (s : InvLoopState) :
    (invalidateLoop cfg env items s).hasCalls =
      s.hasCalls ++ items.map (fun i => i.cacheKey) := by
  induction items generalizing s with
  | nil => simp [invalidateLoop]
  | cons item rest ih =>
    simp [invalidateLoop, ih, invalidateStep_hasCalls]

theorem invalidateLoop_notInCache (cfg : ISRConfig) (env : InvalidateEnv)
    (items : List VariantRebuildItem) (s : InvLoopState) :
    (invalidateLoop cfg env items s).notInCache =
      s.notInCache ++ (items.map (fun i => i.cacheKey)).filter (fun k => !(cacheHasBool env k)) := by
  induction items generalizing s with
  | nil => simp [invalidateLoop]
  | cons item rest ih =>
    simp only [invalidateLoop, ih, invalidateStep_notInCache, List.map_cons]
    rcases h : cacheHasBool env item.cacheKey <;> simp [h, List.filter_cons]

theorem getVariantUrlsToInvalidate_length (cfg : ISRConfig) (urls : List String) :
    (getVariantUrlsToInvalidate cfg urls).length = urls.length * (1 + cfg.variants.length) := by
  induction urls with
  | nil => simp [getVariantUrlsToInvalidate]
  | cons u rest ih =>
    simp [getVariantUrlsToInvalidate] at ih ⊢
    simp [ih]
    ring

theorem getVariantUrlsToInvalidate_pairs (cfg : ISRConfig) (urls : List String) :
    (getVariantUrlsToInvalidate cfg urls).map (fun i => (i.url, i.cacheKey)) =
      urls.flatMap fun url =>
        (url, url) :: cfg.variants.map fun v =>
          (url, cfg.cacheKeyGenerator url cfg.allowedQueryParams (some v)) := by
  induction urls with
  | nil => rfl
  | cons u rest ih =>
    simp [getVariantUrlsToInvalidate] at ih ⊢
    simp [ih, Function.comp_def]

/-! The claim theorems. -/

/-- C1. Single-flight regeneration: a `generateWithCacheKey` call in
`regenerate` mode whose cache key is already in the in-flight registry
returns the skip signal at once, leaves the registry and cache untouched and
never invokes the renderer; otherwise the renderer is invoked, and at the
moment rendering begins the registry is the old registry with the key
appended, so a concurrent regenerate-mode call for the same key observes the
key and skips — at most one regenerate-mode execution per key is in flight. -/
theorem C1_single_flight_regeneration (cfg : ISRConfig) (st : List String)
    (cacheKey : String) (render : Except String RenderData) :
    (cacheKey ∈ st →
      generateWithCacheKey cfg st cacheKey .regenerate render =
        { outcome := .skipped, urlsOnHold := st, writes := []
          rendered := false, registryAtRender := none }) ∧
    (cacheKey ∉ st →
      (generateWithCacheKey cfg st cacheKey .regenerate render).rendered = true ∧
      (generateWithCacheKey cfg st cacheKey .regenerate render).registryAtRender
        = some (st ++ [cacheKey])) := by
  constructor
  · intro h
    simp [generateWithCacheKey, h]
  · intro h
    rcases render with e | rd
    · simp [generateWithCacheKey, h]
    · simp [generateWithCacheKey, h]
      split_ifs <;> simp

/-- Witness for C1 at concrete inputs: a held key is skipped; a free key is
rendered with the key registered. -/
theorem C1_single_flight_regeneration_witness :
    ("k" ∈ (["k"] : List String) ∧
      generateWithCacheKey cfgBase ["k"] "k" .regenerate (.ok ⟨"h", .num 5, []⟩) =
        { outcome := .skipped, urlsOnHold := ["k"], writes := []
          rendered := false, registryAtRender := none }) ∧
    ("k" ∉ ([] : List String) ∧
      (generateWithCacheKey cfgBase [] "k" .regenerate (.ok ⟨"h", .num 5, []⟩)).rendered = true ∧
      (generateWithCacheKey cfgBase [] "k" .regenerate (.ok ⟨"h", .num 5, []⟩)).registryAtRender
        = some ([] ++ ["k"])) :=
  ⟨⟨by decide,
    (C1_single_flight_regeneration cfgBase ["k"] "k" (.ok ⟨"h", .num 5, []⟩)).1 (by decide)⟩,
   ⟨by decide,
    (C1_single_flight_regeneration cfgBase [] "k" (.ok ⟨"h", .num 5, []⟩)).2 (by decide)⟩⟩

/-- C2. The claim demands registry cleanup on every exit path of a
regenerate-mode `generateWithCacheKey` call, but the code violates it on the
two decide-not-to-cache exits: when the resolved revalidate is `-1` or
`null`/`undefined` the function returns without filtering `urlsOnHold`, so
the key stays registered forever and every later regenerate-mode call for
that key is skipped. This theorem evaluates the code at those failing inputs:
starting from an empty registry the key remains held after the call, and a
subsequent regeneration attempt for the same key is skipped. -/
theorem C2_registry_not_cleaned_on_no_cache_paths :
    (generateWithCacheKey cfgBase [] "k" .regenerate (.ok ⟨"h", .num (-1), []⟩)).urlsOnHold
      = ["k"] ∧
    (generateWithCacheKey cfgBase [] "k" .regenerate (.ok ⟨"h", .null, []⟩)).urlsOnHold
      = ["k"] ∧
    (generateWithCacheKey cfgBase ["k"] "k" .regenerate (.ok ⟨"h", .num 5, []⟩)).outcome
      = .skipped := by
  refine ⟨by decide, by decide, by decide⟩

/-- C3. Freshness policy of `serveFromCache` (with no compression and no
cached-HTML callback, and a build id that does not force a miss): an entry
with revalidate `n > 0` is served unmodified with no regeneration while
`now - createdAt ≤ 1000 * n` milliseconds (the exact integer form of
`(now - createdAt) / 1000 ≤ n` seconds); once `(now - createdAt) / 1000 > n`
a serve triggers a regenerate-mode regeneration attempt; an entry with
revalidate `0` is served for every `now` and never triggers a regeneration. -/
theorem C3_serve_freshness_policy (cfg : ISRConfig) (st : List String) (url : String)
    (variant : Option RenderVariant) (cd : CacheData) (now : Int)
    (render : Except String RenderData)
    (hcompress : cfg.compressHtml = none)
    (hbuild : cd.options.buildId = none ∨ cd.options.buildId = cfg.buildId) :
    (∀ n : Int, cd.options.revalidate = .num n → 0 < n →
      now - cd.createdAt ≤ 1000 * n →
      (serveFromCache cfg st url variant none (.ok cd) now render).sent = some cd.html ∧
      (serveFromCache cfg st url variant none (.ok cd) now render).regenerated = false ∧
      (serveFromCache cfg st url variant none (.ok cd) now render).nextCalled = false) ∧
    (∀ n : Int, cd.options.revalidate = .num n → 0 < n →
      1000 * n < now - cd.createdAt →
      (serveFromCache cfg st url variant none (.ok cd) now render).regenerated = true) ∧
    (cd.options.revalidate = .num 0 →
      (serveFromCache cfg st url variant none (.ok cd) now render).sent = some cd.html ∧
      (serveFromCache cfg st url variant none (.ok cd) now render).regenerated = false ∧
      (serveFromCache cfg st url variant none (.ok cd) now render).nextCalled = false) := by
  have hb : ¬ (cd.options.buildId.isSome ∧ cd.options.buildId ≠ cfg.buildId) := by
    rcases hbuild with h | h <;> simp [h]
  refine ⟨?_, ?_, ?_⟩
  · intro n hrev hpos hfresh
    have : ¬ (0 < n ∧ now - cd.createdAt > 1000 * n) := by omega
    simp [serveFromCache, hb, hrev, this, applyModifyCachedHtml, hcompress]
  · intro n hrev hpos hstale
    have : (0 < n ∧ now - cd.createdAt > 1000 * n) := ⟨hpos, hstale⟩
    simp [serveFromCache, hb, hrev, this]
    split
    · rfl
    · split <;> rfl
  · intro hrev
    simp [serveFromCache, hb, hrev, applyModifyCachedHtml, hcompress]

/-- Witness for C3 at concrete inputs: an entry with revalidate 5 created at
time 0 is served as-is at 5000 ms without regeneration. -/
theorem C3_serve_freshness_policy_witness :
    cfgBase.compressHtml = none ∧
    (cdC3.options.buildId = none ∨ cdC3.options.buildId = cfgBase.buildId) ∧
    ((∀ n : Int, cdC3.options.revalidate = .num n → 0 < n →
        (5000 : Int) - cdC3.createdAt ≤ 1000 * n →
        (serveFromCache cfgBase [] "/a" none none (.ok cdC3) 5000
          (.ok ⟨"fresh", .num 5, []⟩)).sent = some cdC3.html ∧
        (serveFromCache cfgBase [] "/a" none none (.ok cdC3) 5000
          (.ok ⟨"fresh", .num 5, []⟩)).regenerated = false ∧
        (serveFromCache cfgBase [] "/a" none none (.ok cdC3) 5000
          (.ok ⟨"fresh", .num 5, []⟩)).nextCalled = false) ∧
      (∀ n : Int, cdC3.options.revalidate = .num n → 0 < n →
        1000 * n < (5000 : Int) - cdC3.createdAt →
        (serveFromCache cfgBase [] "/a" none none (.ok cdC3) 5000
          (.ok ⟨"fresh", .num 5, []⟩)).regenerated = true) ∧
      (cdC3.options.revalidate = .num 0 →
        (serveFromCache cfgBase [] "/a" none none (.ok cdC3) 5000
          (.ok ⟨"fresh", .num 5, []⟩)).sent = some cdC3.html ∧
        (serveFromCache cfgBase [] "/a" none none (.ok cdC3) 5000
          (.ok ⟨"fresh", .num 5, []⟩)).regenerated = false ∧
        (serveFromCache cfgBase [] "/a" none none (.ok cdC3) 5000
          (.ok ⟨"fresh", .num 5, []⟩)).nextCalled = false)) :=
  ⟨rfl, Or.inl rfl,
   C3_serve_freshness_policy cfgBase [] "/a" none cdC3 5000
     (.ok ⟨"fresh", .num 5, []⟩) rfl (Or.inl rfl)⟩

/-- C4. No caching of negative-or-absent revalidate: on a successful render
that does not take the skip-caching-on-error exit (and, in regenerate mode,
was not deduplicated), if the resolved revalidate — the HTML-reported value
coalesced with the configured default via JS `||` — is `-1`, `null` or
`undefined`, then `cache.add` is never invoked and the call returns the
rendered content only; for any other resolved value the entry
`{content, revalidate, buildId}` is written to the store. -/
theorem C4_no_cache_on_negative_or_absent_revalidate (cfg : ISRConfig)
    (st : List String) (cacheKey : String) (mode : Mode) (rd : RenderData)
    (hnoskip : ¬ (mode = .regenerate ∧ cacheKey ∈ st))
    (hnoerr : ¬ (rd.errors ≠ [] ∧ cfg.skipCachingOnHttpError)) :
    ((jsOr rd.revalidate cfg.defaultRevalidate = .num (-1) ∨
      jsOr rd.revalidate cfg.defaultRevalidate = .null ∨
      jsOr rd.revalidate cfg.defaultRevalidate = .undef) →
      (generateWithCacheKey cfg st cacheKey mode (.ok rd)).writes = [] ∧
      (generateWithCacheKey cfg st cacheKey mode (.ok rd)).outcome =
        .result (generatedFinalHtml cfg rd) []) ∧
    (∀ n : Int, jsOr rd.revalidate cfg.defaultRevalidate = .num n → n ≠ -1 →
      (generateWithCacheKey cfg st cacheKey mode (.ok rd)).writes =
        [⟨cacheKey, generatedFinalHtml cfg rd, .num n, cfg.buildId⟩]) := by
  constructor
  · intro hres
    rcases hres with h | h | h <;> simp [generateWithCacheKey, hnoskip, hnoerr, h]
  · intro n hres hn
    simp [generateWithCacheKey, hnoskip, hnoerr, hres, hn]

/-- Witness for C4 at concrete inputs: a reported `-1` is not cached, a
reported `7` is cached with revalidate 7. -/
theorem C4_no_cache_on_negative_or_absent_revalidate_witness :
    (¬ (Mode.generate = Mode.regenerate ∧ "k" ∈ ([] : List String))) ∧
    (¬ ((⟨"h", .num (-1), []⟩ : RenderData).errors ≠ [] ∧ cfgBase.skipCachingOnHttpError)) ∧
    (generateWithCacheKey cfgBase [] "k" .generate (.ok ⟨"h", .num (-1), []⟩)).writes = [] ∧
    (generateWithCacheKey cfgBase [] "k" .generate (.ok ⟨"h", .num 7, []⟩)).writes =
      [⟨"k", generatedFinalHtml cfgBase ⟨"h", .num 7, []⟩, .num 7, cfgBase.buildId⟩] :=
  ⟨by decide, by decide,
   ((C4_no_cache_on_negative_or_absent_revalidate cfgBase [] "k" .generate
      ⟨"h", .num (-1), []⟩ (by decide) (by decide)).1 (Or.inl (by decide))).1,
   (C4_no_cache_on_negative_or_absent_revalidate cfgBase [] "k" .generate
      ⟨"h", .num 7, []⟩ (by decide) (by decide)).2 7 (by decide) (by decide)⟩

/-- C5. The claim says that on a stale entry with background revalidation
disabled, exactly one of two outcomes occurs: the freshly regenerated content
is served, or on failure the request falls through to live rendering without
also sending the stale content. The code violates the failure half: the
`catch` around the awaited regeneration calls `next()` but lacks a `return`,
so execution continues and `res.send` of the stale HTML also runs. This
theorem evaluates the code at the failing input (stale entry, synchronous
mode, failing render): both `next()` is called and the stale HTML is sent. -/
theorem C5_sync_revalidation_failure_sends_stale_and_next :
    (serveFromCache cfgBase [] "/a" none none (.ok cdC5) 2000
      (.error "render failed")).nextCalled = true ∧
    (serveFromCache cfgBase [] "/a" none none (.ok cdC5) 2000
      (.error "render failed")).sent = some "stale" ∧
    (serveFromCache cfgBase [] "/a" none none (.ok cdC5) 2000
      (.error "render failed")).regenerated = true := by
  refine ⟨rfl, rfl, rfl⟩

/-- C6 counterexample. The claim states that every `VariantRebuildItem`
produced by `getVariantUrlsToInvalidate`, including the default no-variant
item, carries a cache key equal to the configured generator's output for the
corresponding (url, allowedQueryParams, variant-or-none). With a generator
that is not the identity on URLs this fails at the concrete input `["/a"]`:
the default item's cache key is the raw URL `/a`, not the generator output
`/a|gen`. -/
theorem C6_default_item_bypasses_generator_counterexample :
    ¬ (∀ item ∈ getVariantUrlsToInvalidate cfgC6 ["/a"],
        item.cacheKey =
          cfgC6.cacheKeyGenerator item.url cfgC6.allowedQueryParams none ∨
        ∃ v ∈ cfgC6.variants,
          item.cacheKey =
            cfgC6.cacheKeyGenerator item.url cfgC6.allowedQueryParams (some v)) := by
  decide

/-- C6 as amended: for every configuration and URL list, the produced cache
keys are, per URL, first the raw URL itself (the default no-variant item is
built as `{ url, cacheKey: url }`, bypassing the generator) and then the
generator output for each configured variant in declaration order. -/
theorem C6_variant_items_use_generator (cfg : ISRConfig) (urls : List String) :
    (getVariantUrlsToInvalidate cfg urls).map (fun i => i.cacheKey) =
      urls.flatMap fun url =>
        url :: cfg.variants.map fun v =>
          cfg.cacheKeyGenerator url cfg.allowedQueryParams (some v) := by
  induction urls with
  | nil => rfl
  | cons u rest ih =>
    simp [getVariantUrlsToInvalidate] at ih ⊢
    simp [ih, Function.comp_def]

/-- C7. Invalidation fails closed: a provided token that differs from the
configured invalidation secret yields the authorization-error response with
zero store operations (`hasCalls = []`), zero cache writes and zero
regenerations; with a matching token, a missing or empty `urlsToInvalidate`
yields the validation-error response, again before any store operation. -/
theorem C7_invalidate_fails_closed (cfg : ISRConfig) (st : List String)
    (token : JSStr) (urls : Option (List String)) (env : InvalidateEnv) :
    (token ≠ cfg.invalidateSecretToken →
      invalidate cfg st token urls env =
        { status := "error", message := some "Your secret token is wrong!!!"
          notInCache := [], urlWithErrors := [], invalidatedUrls := []
          hasCalls := [], urlsOnHold := st, writes := [], regens := [] }) ∧
    (token = cfg.invalidateSecretToken → (urls = none ∨ urls = some []) →
      invalidate cfg st token urls env =
        { status := "error", message := some "Please add urlsToInvalidate in the payload!"
          notInCache := [], urlWithErrors := [], invalidatedUrls := []
          hasCalls := [], urlsOnHold := st, writes := [], regens := [] }) := by
  constructor
  · intro h
    simp [invalidate, h]
  · intro htok hurls
    rcases hurls with h | h <;> simp [invalidate, htok, h]

/-- Witness for C7 at concrete inputs: a wrong token (against the null
secret) is rejected with no store operation; a correct token with an absent
URL list is rejected with no store operation. -/
theorem C7_invalidate_fails_closed_witness :
    (JSStr.str "wrong" ≠ cfgBase.invalidateSecretToken ∧
      invalidate cfgBase [] (.str "wrong") (some ["/a"]) envHasOnlyA =
        { status := "error", message := some "Your secret token is wrong!!!"
          notInCache := [], urlWithErrors := [], invalidatedUrls := []
          hasCalls := [], urlsOnHold := [], writes := [], regens := [] }) ∧
    (JSStr.null = cfgBase.invalidateSecretToken ∧
      invalidate cfgBase [] .null none envHasOnlyA =
        { status := "error", message := some "Please add urlsToInvalidate in the payload!"
          notInCache := [], urlWithErrors := [], invalidatedUrls := []
          hasCalls := [], urlsOnHold := [], writes := [], regens := [] }) :=
  ⟨⟨by decide,
    (C7_invalidate_fails_closed cfgBase [] (.str "wrong") (some ["/a"]) envHasOnlyA).1
      (by decide)⟩,
   ⟨by decide,
    (C7_invalidate_fails_closed cfgBase [] .null none envHasOnlyA).2
      (by decide) (Or.inl rfl)⟩⟩

/-- C8. Variant expansion cardinality and order: `getVariantUrlsToInvalidate`
produces exactly `|urls| * (1 + |variants|)` rebuild items — per URL the
default item first, then one item per variant in declaration order — and,
for a valid invalidation request, the invalidate loop performs exactly one
`cache.has` check per produced item in order, and records exactly the absent
keys under `notInCache`. -/
theorem C8_variant_expansion_cardinality_and_order (cfg : ISRConfig)
    (st : List String) (urls : List String) (env : InvalidateEnv)
    (hne : urls ≠ []) :
    (getVariantUrlsToInvalidate cfg urls).length = urls.length * (1 + cfg.variants.length) ∧
    (getVariantUrlsToInvalidate cfg urls).map (fun i => (i.url, i.cacheKey)) =
      (urls.flatMap fun url =>
        (url, url) :: cfg.variants.map fun v =>
          (url, cfg.cacheKeyGenerator url cfg.allowedQueryParams (some v))) ∧
    (invalidate cfg st cfg.invalidateSecretToken (some urls) env).hasCalls =
      (getVariantUrlsToInvalidate cfg urls).map (fun i => i.cacheKey) ∧
    (invalidate cfg st cfg.invalidateSecretToken (some urls) env).notInCache =
      ((getVariantUrlsToInvalidate cfg urls).map (fun i => i.cacheKey)).filter
        (fun k => !(cacheHasBool env k)) := by
  refine ⟨getVariantUrlsToInvalidate_length cfg urls,
    getVariantUrlsToInvalidate_pairs cfg urls, ?_, ?_⟩
  · rcases urls with _ | ⟨u, rest⟩
    · exact absurd rfl hne
    · simp [invalidate, invalidateLoop_hasCalls]
  · rcases urls with _ | ⟨u, rest⟩
    · exact absurd rfl hne
    · simp [invalidate, invalidateLoop_notInCache]

/-- Witness for C8 at concrete inputs: invalidating two URLs under two
configured variants. -/
theorem C8_variant_expansion_cardinality_and_order_witness :
    (["/a", "/b"] : List String) ≠ [] ∧
    ((getVariantUrlsToInvalidate cfgC8 ["/a", "/b"]).length =
        (["/a", "/b"] : List String).length * (1 + cfgC8.variants.length) ∧
      (getVariantUrlsToInvalidate cfgC8 ["/a", "/b"]).map (fun i => (i.url, i.cacheKey)) =
        ((["/a", "/b"] : List String).flatMap fun url =>
          (url, url) :: cfgC8.variants.map fun v =>
            (url, cfgC8.cacheKeyGenerator url cfgC8.allowedQueryParams (some v))) ∧
      (invalidate cfgC8 [] cfgC8.invalidateSecretToken (some ["/a", "/b"]) envHasOnlyA).hasCalls =
        (getVariantUrlsToInvalidate cfgC8 ["/a", "/b"]).map (fun i => i.cacheKey) ∧
      (invalidate cfgC8 [] cfgC8.invalidateSecretToken (some ["/a", "/b"]) envHasOnlyA).notInCache =
        ((getVariantUrlsToInvalidate cfgC8 ["/a", "/b"]).map (fun i => i.cacheKey)).filter
          (fun k => !(cacheHasBool envHasOnlyA k))) :=
  ⟨by decide,
   C8_variant_expansion_cardinality_and_order cfgC8 [] ["/a", "/b"] envHasOnlyA (by decide)⟩

/-- C9. Timeout executor contract: `executeWithTimeout` always clears the
scheduled timer; when the operation settles within `timeoutMs` the race
settles with the operation's own outcome at the operation's settle time; when
the operation has not settled within `timeoutMs` (including never settling)
the race rejects with an error carrying exactly the given message at exactly
`timeoutMs` — a bounded failure, not before the deadline and not indefinitely
after it. -/
theorem C9_timeout_executor_contract {α : Type} (p : SimPromise α)
    (timeoutMs : Nat) (message : String) :
    (executeWithTimeout p timeoutMs message).timerCleared = true ∧
    (∀ t o, p.settled = some (t, o) → t ≤ timeoutMs →
      executeWithTimeout p timeoutMs message =
        { outcome := o, finishTime := t, timerCleared := true }) ∧
    ((∀ t o, p.settled = some (t, o) → timeoutMs < t) →
      executeWithTimeout p timeoutMs message =
        { outcome := .error message, finishTime := timeoutMs, timerCleared := true }) := by
  refine ⟨?_, ?_, ?_⟩
  · unfold executeWithTimeout
    rcases h : p.settled with _ | ⟨t, o⟩ <;> simp
    split <;> simp
  · intro t o h hle
    simp [executeWithTimeout, h, hle]
  · intro hlate
    unfold executeWithTimeout
    rcases h : p.settled with _ | ⟨t, o⟩
    · simp
    · have := hlate t o h
      simp [h, Nat.not_le.mpr this]

/-- Witness for C9 at concrete inputs: an operation that never settles fails
with the message at the 100 ms deadline, and an operation settling at 50 ms
resolves with its own value at 50 ms; the timer is cleared in both runs. -/
theorem C9_timeout_executor_contract_witness :
    (executeWithTimeout (⟨none⟩ : SimPromise Nat) 100 "Timeout error").timerCleared = true ∧
    executeWithTimeout (⟨none⟩ : SimPromise Nat) 100 "Timeout error" =
      { outcome := .error "Timeout error", finishTime := 100, timerCleared := true } ∧
    ((50 : Nat) ≤ 100 ∧
      executeWithTimeout (⟨some (50, .ok 7)⟩ : SimPromise Nat) 100 "Timeout error" =
        { outcome := .ok 7, finishTime := 50, timerCleared := true }) :=
  ⟨(C9_timeout_executor_contract (⟨none⟩ : SimPromise Nat) 100 "Timeout error").1,
   (C9_timeout_executor_contract (⟨none⟩ : SimPromise Nat) 100 "Timeout error").2.2
     (fun t o h => by simp at h),
   ⟨by decide,
    (C9_timeout_executor_contract (⟨some (50, .ok 7)⟩ : SimPromise Nat) 100 "Timeout error").2.1
      50 (.ok 7) rfl (by decide)⟩⟩

/-- C10. Because the resolution step uses JS falsy coalescing
(`revalidate || defaultRevalidate`), a cache write carrying revalidate 0 can
only arise when the configured default revalidate is itself 0: a truthy
reported value passes through unchanged and is nonzero, so a stored 0 must
have come from the configured default. -/
theorem C10_zero_revalidate_requires_zero_default (cfg : ISRConfig)
    (st : List String) (cacheKey : String) (mode : Mode)
    (render : Except String RenderData) (w : CacheWrite)
    (hw : w ∈ (generateWithCacheKey cfg st cacheKey mode render).writes)
    (h0 : w.revalidate = .num 0) :
    cfg.defaultRevalidate = .num 0 := by
  unfold generateWithCacheKey at hw
  split at hw
  · simp at hw
  · rcases render with e | rd
    · simp at hw
    · simp only at hw
      split at hw
      · simp at hw
      · split at hw
        · simp at hw
        · split at hw
          · simp at hw
          · simp at hw
            subst hw
            simp at h0
            exact jsOr_eq_zero h0

/-- Witness for C10 at concrete inputs: with a configured default of 0 and a
page reporting `null`, the entry is cached with revalidate 0 and the default
is indeed 0. -/
theorem C10_zero_revalidate_requires_zero_default_witness :
    (⟨"k", "h", .num 0, none⟩ : CacheWrite) ∈
      (generateWithCacheKey cfgC10 [] "k" .generate (.ok ⟨"h", .null, []⟩)).writes ∧
    (⟨"k", "h", .num 0, none⟩ : CacheWrite).revalidate = .num 0 ∧
    cfgC10.defaultRevalidate = .num 0 :=
  ⟨by decide, by decide,
   C10_zero_revalidate_requires_zero_default cfgC10 [] "k" .generate
     (.ok ⟨"h", .null, []⟩) ⟨"k", "h", .num 0, none⟩ (by decide) (by decide)⟩
